import Mathlib

/-!
Verification development for the `ofh_tools` repository: a shallow embedding of
its four Python modules (`load_fields_list.py`, `extract_raw_field_vals.py`,
`process_raw_field_vals.py`, `utils.py`) and proofs about them.

Modelling conventions:
* A pandas cell value is `Val`: integers, floats (modelled exactly as rationals),
  strings, and the missing value (`NaN`/`NaT`/`None`) collapsed into `Val.vNan`.
* A DataFrame row is an association list from column name to `Val`; a DataFrame
  is a column-name list plus a row list.  Boolean-mask filtering `df[mask]`
  keeps the matching rows in order with the columns untouched, as in pandas.
* Fallible Python code is embedded with `Except PyError`; the constructors are
  named after the Python exception classes the source raises.
-/

/-- Python exception classes raised by the embedded code. -/
inductive PyError where
  | valueError : PyError
  | keyError : PyError
  | nameError (msg : String) : PyError
  | fileNotFoundError : PyError
  | assertionError : PyError
deriving DecidableEq, Repr

deriving instance DecidableEq for Except

/-- A pandas cell value.  Python floats are modelled exactly as rationals;
`vNan` stands for all missing values (`NaN`, `NaT`, `None`). -/
inductive Val where
  | vInt : Int → Val
  | vFloat : Rat → Val
  | vStr : String → Val
  | vNan : Val
deriving DecidableEq, Repr

/-- A DataFrame row: an association list from column name to value. -/
abbrev Row := List (String × Val)

/-- Cell lookup in a row.  `none` means the column is absent from the row. -/
def Row.get? (r : Row) (c : String) : Option Val :=
  (r.find? (fun p => p.1 = c)).map (fun p => p.2)

/-- Replace the value of column `c` in a row, appending the column when absent
(models pandas column assignment at row level). -/
def Row.setCell (r : Row) (c : String) (v : Val) : Row :=
  if (r.find? (fun p => p.1 = c)).isSome then
    r.map (fun p => if p.1 = c then (c, v) else p)
  else
    r ++ [(c, v)]

/-- A DataFrame: the list of column names and the list of rows. -/
structure Table where
  cols : List String
  rows : List Row
deriving DecidableEq, Repr

instance : Inhabited Table := ⟨⟨[], []⟩⟩

/-! ### Pandas elementwise comparison semantics

These model how a pandas Series built from a column behaves under the
operations the source uses (`!=`, `.isin`, `.notna`, `>=`).  A missing value
(`vNan` or an absent cell) compares as pandas `NaN` does: `NaN != x` is true,
`NaN.isin(...)` is false, `notna(NaN)` is false, `NaN >= x` is false. -/

def pyNe (v : Option Val) (n : Int) : Bool :=
  match v with
  | some (Val.vInt m) => m ≠ n
  | some (Val.vFloat q) => q ≠ (n : Rat)
  | some (Val.vStr _) => true
  | some Val.vNan => true
  | none => true

def pyIsin (v : Option Val) (ns : List Int) : Bool :=
  match v with
  | some (Val.vInt m) => ns.contains m
  | some (Val.vFloat q) => ns.any (fun n => q = (n : Rat))
  | _ => false

def pyNotna (v : Option Val) : Bool :=
  match v with
  | some Val.vNan => false
  | some _ => true
  | none => false

def pyGe (v : Option Val) (n : Int) : Bool :=
  match v with
  | some (Val.vInt m) => n ≤ m
  | some (Val.vFloat q) => (n : Rat) ≤ q
  | _ => false

/-! ### Character-list string helpers

The built-in `String.trim`, `String.splitOn`, `String.replace`, `String.toLower`
are byte-position based; we model the Python string operations the source uses
over `List Char` instead (all are executable and kernel-reducible). -/

/-- Python `str.strip()` on a character list: drop whitespace at both ends. -/
def trimChars (cs : List Char) : List Char :=
  ((cs.dropWhile Char.isWhitespace).reverse.dropWhile Char.isWhitespace).reverse

/-- Python `str.strip()`. -/
def pyStrip (s : String) : String :=
  String.mk (trimChars s.data)

/-- Split a character list on a separator character (splits of `"a/b/c"` style). -/
def splitOnChar (sep : Char) (cs : List Char) : List (List Char) :=
  cs.foldr
    (fun c acc =>
      match acc with
      | [] => [[c]]
      | g :: gs => if c = sep then [] :: g :: gs else (c :: g) :: gs)
    [[]]

/-- Python `str.lower()`. -/
def pyLower (s : String) : String :=
  String.mk (s.data.map Char.toLower)

/-- Fuel-driven worker for `pyReplace`: replace every occurrence of `pat`. -/
def replaceAllAux (pat rep : List Char) : Nat → List Char → List Char
  | _, [] => []
  | 0, cs => cs
  | Nat.succ n, c :: rest =>
      if pat.isPrefixOf (c :: rest) && !pat.isEmpty then
        rep ++ replaceAllAux pat rep n ((c :: rest).drop pat.length)
      else
        c :: replaceAllAux pat rep n rest

/-- Python `str.replace(pat, rep)` (leftmost-first, non-overlapping),
for a non-empty pattern. -/
def pyReplace (s pat rep : String) : String :=
  String.mk (replaceAllAux pat.data rep.data s.data.length s.data)

/-- Python `str.endswith(suffix)`. -/
def pyEndsWith (s suffix : String) : Bool :=
  suffix.data.isSuffixOf s.data

/-! ### `load_fields_list.float_to_int_if_possible` -/

/-- Digit-string check used by the decimal-literal parser. -/
def isDigitList (cs : List Char) : Bool :=
  !cs.isEmpty && cs.all Char.isDigit

/-- Value of a digit string. -/
def natOfDigits (cs : List Char) : Nat :=
  cs.foldl (fun a c => a * 10 + (c.toNat - 48)) 0

/-- Kernel-reducible rational division (the library `Rat.div` is marked
irreducible, which blocks `decide`-style evaluation); `qdiv_eq_div` below
shows it agrees with `/` everywhere. -/
def qdiv (a b : Rat) : Rat :=
  if 0 ≤ b.num then mkRat (a.num * b.den) (a.den * b.num.natAbs)
  else mkRat (-(a.num * b.den)) (a.den * b.num.natAbs)

/-- Python `float(·)` on a string, restricted to plain decimal literals
(optional sign, digits, optional fractional part, surrounding whitespace
stripped); the value `dddd.ff` is constructed directly as the exact rational
`(dddd·10^k + ff) / 10^k`.  Exponent/`inf`/`nan` spellings are not modelled;
they do not occur in this repository's data paths.  Returns `none` where
Python raises `ValueError`. -/
def parseFloatLit (s : String) : Option Rat :=
  let cs := trimChars s.data
  let signed : Bool × List Char :=
    match cs with
    | '-' :: rest => (true, rest)
    | '+' :: rest => (false, rest)
    | _ => (false, cs)
  let neg := signed.1
  let body := signed.2
  let withSign : Nat → Int := fun n => if neg then -(n : Int) else (n : Int)
  match body.splitOn '.' with
  | [intPart] =>
      if isDigitList intPart then some (mkRat (withSign (natOfDigits intPart)) 1)
      else none
  | [intPart, fracPart] =>
      if (intPart.all Char.isDigit && fracPart.all Char.isDigit)
          && !(intPart.isEmpty && fracPart.isEmpty) then
        some (mkRat
          (withSign (natOfDigits intPart * 10 ^ fracPart.length + natOfDigits fracPart))
          (10 ^ fracPart.length))
      else none
  | _ => none

/-- Python `float(val)` for a cell value: numbers convert, numeric-looking
strings parse, everything else (`NaN` included, whose `int(·)` conversion
raises) yields `none`, meaning the `except` branch of the source is taken. -/
def pyFloatOf (v : Val) : Option Rat :=
  match v with
  | Val.vInt n => some (n : Rat)
  | Val.vFloat q => some q
  | Val.vStr s => parseFloatLit s
  | Val.vNan => none

/-- Python `int(·)` on a float: truncation toward zero. -/
def pyTrunc (q : Rat) : Int :=
  Int.tdiv q.num (q.den : Int)

/-- `load_fields_list.float_to_int_if_possible`: convert to float, truncate,
return the integer when the float equals its truncation, the float otherwise,
and the original value when conversion raises. -/
def float_to_int_if_possible (v : Val) : Val :=
  match pyFloatOf v with
  | none => v
  | some float_val =>
      let int_val := pyTrunc float_val
      if float_val = (int_val : Rat) then Val.vInt int_val else Val.vFloat float_val

/-! ### `process_raw_field_vals.apply_exclusions` -/

namespace ProcessRaw

/-- The list of boolean filter conditions built by `apply_exclusions`,
in source order; each is appended only when its source column exists. -/
def exclusionConditions (df : Table) : List (Row → Bool) :=
  (if df.cols.contains "participant.birth_year" then
    [fun r => pyNe (r.get? "participant.birth_year") (-999)]
  else []) ++
  (if df.cols.contains "participant.demog_sex_2_1" then
    [fun r => !pyIsin (r.get? "participant.demog_sex_2_1") [3, -3],
     fun r => pyNotna (r.get? "participant.demog_sex_2_1")]
  else []) ++
  (if df.cols.contains "participant.demog_ethnicity_1_1" then
    [fun r => !pyIsin (r.get? "participant.demog_ethnicity_1_1") [19, -3]]
  else []) ++
  (if df.cols.contains "questionnaire.housing_income_1_1" then
    [fun r => !pyIsin (r.get? "questionnaire.housing_income_1_1") [-1, -3],
     fun r => pyNotna (r.get? "questionnaire.housing_income_1_1")]
  else []) ++
  (if df.cols.contains "age" then
    [fun r => pyGe (r.get? "age") 18]
  else [])

/-- `process_raw_field_vals.apply_exclusions`: combine the applicable
conditions with `reduce(lambda x, y: x & y, ·)` and filter, or return the
table unchanged with a warning (the `Bool` component) when no condition
applies. -/
def apply_exclusions (df : Table) : Table × Bool :=
  match exclusionConditions df with
  | [] => (df, true)
  | c :: cs =>
      ({ df with
          rows := df.rows.filter (fun r => cs.foldl (fun acc f => acc && f r) (c r)) },
       false)

/-- The row predicate as the specification words it: the conjunction of the
five exclusion conditions, each guarded by presence of its source column. -/
def keepRowSpec (cols : List String) (r : Row) : Bool :=
  (!cols.contains "participant.birth_year"
      || pyNe (r.get? "participant.birth_year") (-999)) &&
  (!cols.contains "participant.demog_sex_2_1"
      || (!pyIsin (r.get? "participant.demog_sex_2_1") [3, -3]
          && pyNotna (r.get? "participant.demog_sex_2_1"))) &&
  (!cols.contains "participant.demog_ethnicity_1_1"
      || !pyIsin (r.get? "participant.demog_ethnicity_1_1") [19, -3]) &&
  (!cols.contains "questionnaire.housing_income_1_1"
      || (!pyIsin (r.get? "questionnaire.housing_income_1_1") [-1, -3]
          && pyNotna (r.get? "questionnaire.housing_income_1_1"))) &&
  (!cols.contains "age" || pyGe (r.get? "age") 18)

/-- None of the five recognized exclusion columns is present. -/
def noExclusionCols (cols : List String) : Bool :=
  !cols.contains "participant.birth_year"
    && !cols.contains "participant.demog_sex_2_1"
    && !cols.contains "participant.demog_ethnicity_1_1"
    && !cols.contains "questionnaire.housing_income_1_1"
    && !cols.contains "age"

/-! #### `derive_age_at_recruiment` and `process_raw_data` -/

/-- Days since 1970-01-01 of a proleptic Gregorian civil date (Howard
Hinnant's `days_from_civil` algorithm); models pandas `Timestamp` day
arithmetic.  Within the pandas `Timestamp` year range all division operands
are non-negative, where every integer-division convention agrees. -/
def days_from_civil (y m d : Int) : Int :=
  let yy := if m ≤ 2 then y - 1 else y
  let era := (if 0 ≤ yy then yy else yy - 399) / 400
  let yoe := yy - era * 400
  let mp := (m + 9) % 12
  let doy := (153 * mp + 2) / 5 + d - 1
  let doe := yoe * 365 + yoe / 4 - yoe / 100 + doy
  era * 146097 + doe - 719468

/-- `pd.to_datetime(dict(year, month, day=1), errors="coerce")` for one row:
a valid month in a year within the pandas `Timestamp` range gives the day
number of the first of that month; anything else (missing, fractional,
out-of-range) coerces to `NaT`, i.e. `none`. -/
def pdTimestamp? (y m : Option Int) : Option Int :=
  match y, m with
  | some y, some m =>
      if 1 ≤ m && m ≤ 12 && 1678 ≤ y && y ≤ 2261 then some (days_from_civil y m 1)
      else none
  | _, _ => none

/-- Integer content of a year/month cell: integers directly, whole floats
coerced, anything else missing. -/
def cellInt? (r : Row) (c : String) : Option Int :=
  match r.get? c with
  | some (Val.vInt n) => some n
  | some (Val.vFloat q) => if q.den = 1 then some q.num else none
  | _ => none

/-- A date cell: the day number, or `NaN`/`NaT` when missing. -/
def dateVal : Option Int → Val
  | some d => Val.vInt d
  | none => Val.vNan

/-- The columns `derive_age_at_recruiment` requires before doing anything. -/
def requiredAgeCols : List String :=
  ["participant.registration_year", "participant.registration_month",
   "participant.birth_year", "participant.birth_month"]

/-- The source's `365.25` divisor, as an exact rational. -/
def daysPerYear : Rat := mkRat 36525 100

/-- `process_raw_field_vals.derive_age_at_recruiment`: when all four
registration/birth year+month columns are present, add `registration_date`
and `birth_date` (day fixed to the 1st, invalid combinations coerce to
`NaT`) and `age_at_recruitment = (registration_date - birth_date).days /
365.25`; otherwise return the table unchanged. -/
def derive_age_at_recruiment (df : Table) : Table :=
  if requiredAgeCols.all (fun c => df.cols.contains c) then
    { cols := df.cols ++
        (["registration_date", "birth_date", "age_at_recruitment"].filter
          (fun c => !df.cols.contains c)),
      rows := df.rows.map (fun r =>
        let reg := pdTimestamp? (cellInt? r "participant.registration_year")
          (cellInt? r "participant.registration_month")
        let birth := pdTimestamp? (cellInt? r "participant.birth_year")
          (cellInt? r "participant.birth_month")
        let age : Val :=
          match reg, birth with
          | some a, some b => Val.vFloat (qdiv ((a - b : Int) : Rat) daysPerYear)
          | _, _ => Val.vNan
        ((r.setCell "registration_date" (dateVal reg)).setCell
            "birth_date" (dateVal birth)).setCell "age_at_recruitment" age) }
  else df

/-- `process_raw_field_vals.process_raw_data` on an in-memory DataFrame:
`load_input` takes a defensive copy, after which the source calls
`derive_age(df)` — a name defined nowhere in the module (the function that
exists is `derive_age_at_recruiment`) — so Python raises `NameError` before
any age derivation, exclusion filtering, or output write happens. -/
def process_raw_data (df : Table) : Except PyError Table :=
  let _df := df
  Except.error (PyError.nameError "derive_age is not defined")

/-- The specification's concrete age-derivation example: registration
2020-06, birth 1990-06. -/
def c2Row : Row :=
  [("participant.registration_year", Val.vInt 2020),
   ("participant.registration_month", Val.vInt 6),
   ("participant.birth_year", Val.vInt 1990),
   ("participant.birth_month", Val.vInt 6)]

/-- One-row table carrying the four required age-derivation columns. -/
def c2Table : Table := ⟨requiredAgeCols, [c2Row]⟩

end ProcessRaw

/-! ### File fetcher (`load_or_download_file`, both variants) -/

/-- A filesystem path: absolute (rooted at `/`) or relative to the working
directory, as a component list.  `Path.resolve()` is modelled as the identity
on absolute paths; the scripts' working directory is not under the project
mount, so a relative target path never resolves below `/mnt/project`. -/
structure PPath where
  absolute : Bool
  comps : List String
deriving DecidableEq, Repr

/-- `Path.name`: the final path component. -/
def PPath.name (p : PPath) : String := p.comps.getLastD ""

/-- The components of the project root `/mnt/project`. -/
def projectRootComps : List String := ["mnt", "project"]

/-- `file_path.resolve().relative_to(Path("/mnt/project"))`: the components
below the project root, or `none` where Python raises `ValueError`. -/
def relativeToProjectRoot (p : PPath) : Option (List String) :=
  if p.absolute && projectRootComps.isPrefixOf p.comps then
    some (p.comps.drop 2)
  else none

/-- External commands the fetchers run. -/
inductive Cmd where
  | mkdirParents (dir : PPath) : Cmd
  | dxDownload (fileId : String) (dest : PPath) : Cmd
deriving DecidableEq, Repr

/-- The observable filesystem/subprocess environment: which paths exist,
which parse as valid JSON, and for which destinations `dx download` succeeds
(exit code 0 and destination file produced). -/
structure FS where
  existing : List PPath
  validJson : List PPath
  downloadOk : List PPath
deriving DecidableEq, Repr

namespace ExtractRaw

/-- `extract_raw_field_vals.load_or_download_file`: returns the chosen path
(or the raised error), the external commands run, and the filesystem
afterwards.  Checks the target, then a fallback re-rooted below the project
root into the working directory (flat file name when the target is outside
the project root), then downloads. -/
def load_or_download_file (fs : FS) (file_path : PPath) (file_id : String)
    (validate_json : Bool) : (Except PyError PPath) × List Cmd × FS :=
  if fs.existing.contains file_path
      && (!validate_json || fs.validJson.contains file_path) then
    (Except.ok file_path, [], fs)
  else
    let relative_path : List String :=
      match relativeToProjectRoot file_path with
      | some r => r
      | none => [file_path.name]
    let fallback_path : PPath := ⟨false, relative_path⟩
    if fs.existing.contains fallback_path
        && (!validate_json || fs.validJson.contains fallback_path) then
      (Except.ok fallback_path, [], fs)
    else
      let cmds := [Cmd.mkdirParents ⟨false, relative_path.dropLast⟩,
                   Cmd.dxDownload file_id fallback_path]
      if fs.downloadOk.contains fallback_path then
        (Except.ok fallback_path, cmds,
         { fs with existing := fallback_path :: fs.existing })
      else
        (Except.error PyError.fileNotFoundError, cmds, fs)

end ExtractRaw

namespace LoadFields

/-- `load_fields_list.load_or_download_file`: this variant always validates
the target as JSON; in config mode the fallback is `helpers/<name>`, and
otherwise it computes `file_path.relative_to("/mnt/project")` with no
`try`/`except`, so Python's `ValueError` escapes when the target is not under
the project root.  It prompts before overwriting an existing fallback file
(`overwrite_yes` is the console answer) and skips the download when the
answer is not yes. -/
def load_or_download_file (fs : FS) (file_path : PPath) (file_id : String)
    (config_mode : Bool) (overwrite_yes : Bool) :
    (Except PyError PPath) × List Cmd × FS :=
  if fs.existing.contains file_path && fs.validJson.contains file_path then
    (Except.ok file_path, [], fs)
  else
    let fallback? : Option PPath :=
      if config_mode then some ⟨false, ["helpers", file_path.name]⟩
      else (relativeToProjectRoot file_path).map (fun r => ⟨false, r⟩)
    match fallback? with
    | none => (Except.error PyError.valueError, [], fs)
    | some fallback_path =>
      let mk := Cmd.mkdirParents ⟨false, fallback_path.comps.dropLast⟩
      if fs.existing.contains fallback_path && !overwrite_yes then
        (Except.ok fallback_path, [mk], fs)
      else
        let cmds := [mk, Cmd.dxDownload file_id fallback_path]
        if fs.downloadOk.contains fallback_path then
          (Except.ok fallback_path, cmds,
           { fs with existing := fallback_path :: fs.existing })
        else
          (Except.error PyError.fileNotFoundError, cmds, fs)

end LoadFields

/-- The fallback path as the claim describes it: re-root below `/mnt/project`
into the local cache, else the flat file name. -/
def rerootSpec (p : PPath) : List String :=
  match relativeToProjectRoot p with
  | some r => r
  | none => [p.name]

/-- Destinations of the `dx download` invocations in a command list. -/
def downloadTargets (cmds : List Cmd) : List PPath :=
  cmds.filterMap (fun c =>
    match c with
    | Cmd.dxDownload _ dest => some dest
    | _ => none)

/-- A target path outside the project root (for the C4 scenarios). -/
def c4Path : PPath := ⟨true, ["other", "file.json"]⟩

/-- Empty filesystem: nothing exists, nothing downloads. -/
def c4FS : FS := ⟨[], [], []⟩

/-- Filesystem on which only the download of the flat fallback succeeds. -/
def c4FSdl : FS := ⟨[], [], [⟨false, ["file.json"]⟩]⟩

/-- An existing, valid-JSON target below the project root (C3 witness). -/
def c3Path : PPath := ⟨true, ["mnt", "project", "helpers", "config.json"]⟩

/-- Filesystem on which `c3Path` exists and parses as valid JSON. -/
def c3FS : FS := ⟨[c3Path], [c3Path], []⟩

/-! ### `extract_raw_field_vals.extract_fields` -/

namespace ExtractRaw

/-- External actions `extract_fields` can perform, in order. -/
inductive XCmd where
  | dxExtractDataset (dataset_id fields output : String) (sql : Bool) : XCmd
  | moveFile (src dst : String) : XCmd
  | rewriteCsv (src dst : String) : XCmd
  | removeFile (f : String) : XCmd
deriving DecidableEq, Repr

/-- Python `str(row[col])` for a cell: strings are themselves, integers and
floats print, a missing value prints as `nan` (its exact rendering of
non-string cells is irrelevant to the claims, which only compare both sides
through this same function). -/
def pyStr (v : Option Val) : String :=
  match v with
  | some (Val.vStr s) => s
  | some (Val.vInt n) => toString n
  | some (Val.vFloat q) => toString q
  | some Val.vNan => "nan"
  | none => "nan"

/-- `extract_raw_field_vals.extract_fields`, given the already-read field
list table: validates the `entity`/`name` columns (raising `ValueError` — the
specification's `SchemaError` — before any external command), builds the
comma-joined `entity.name` field specification with each component stripped,
and runs the external extraction commands (SQL-only or CSV mode).  Returns
the outcome and the external actions performed, in order. -/
def extract_fields (dataset_id : String) (tbl : Table) (output_file : String)
    (sql_only : Bool) : (Except PyError Unit) × List XCmd :=
  if !(tbl.cols.contains "entity" && tbl.cols.contains "name") then
    (Except.error PyError.valueError, [])
  else
    let field_names := String.intercalate ","
      (tbl.rows.map (fun r =>
        pyStrip (pyStr (r.get? "entity")) ++ "." ++ pyStrip (pyStr (r.get? "name"))))
    if sql_only then
      (Except.ok (),
       [XCmd.dxExtractDataset dataset_id field_names "extracted_query.sql" true,
        XCmd.moveFile "extracted_query.sql" output_file])
    else
      (Except.ok (),
       [XCmd.dxExtractDataset dataset_id field_names "temp_extracted_data.csv" false,
        XCmd.rewriteCsv "temp_extracted_data.csv" output_file,
        XCmd.removeFile "temp_extracted_data.csv"])

/-- The field-specification strings handed to the external extraction
command. -/
def fieldSpecsSent (res : (Except PyError Unit) × List XCmd) : List String :=
  res.2.filterMap (fun c =>
    match c with
    | XCmd.dxExtractDataset _ fields _ _ => some fields
    | _ => none)

/-- The specification's two-pair field list, with stray whitespace. -/
def c7Table : Table :=
  ⟨["entity", "name"],
   [[("entity", Val.vStr " entity1 "), ("name", Val.vStr "name1 ")],
    [("entity", Val.vStr "entity2"), ("name", Val.vStr " name2")]]⟩

end ExtractRaw

/-! ### `load_fields_list.main`: the metadata merge -/

namespace LoadFields

/-- `load_fields_list.strip_strings`: strip whitespace from the string cells
(pandas applies `.str.strip()` to object-dtype columns, which hold the string
values; modelled cellwise). -/
def strip_strings (df : Table) : Table :=
  { df with
      rows := df.rows.map (fun r => r.map (fun p =>
        match p.2 with
        | Val.vStr s => (p.1, Val.vStr (pyStrip s))
        | v => (p.1, v))) }

/-- Join-key pairs whose left and right column names coincide; pandas folds
each such pair into a single output column. -/
def sharedKeyNames (keys : List (String × String)) : List String :=
  (keys.filter (fun k => k.1 == k.2)).map (fun k => k.1)

/-- Output name of a right-table column: suffixed when it collides with a
left column (the left-side suffix is empty at both source call sites). -/
def rightOutName (lcols : List String) (suf c : String) : String :=
  if lcols.contains c then c ++ suf else c

/-- The right-table columns that survive into the join output (all but the
collapsed same-name key columns). -/
def rightOutCols (R : Table) (keys : List (String × String)) : List String :=
  R.cols.filter (fun c => !(sharedKeyNames keys).contains c)

/-- Do rows `l` and `r` agree on every join-key pair?  (pandas also joins a
missing key to a missing key, which `Option`/`Val` equality reflects.) -/
def joinKeyMatch (keys : List (String × String)) (l r : Row) : Bool :=
  keys.all (fun k => l.get? k.1 == r.get? k.2)

/-- `pd.merge(L, R, how="left", left_on, right_on, suffixes=("", suf))`:
every left row is combined with each matching right row, or padded with
missing values when no right row matches; surviving right columns are
renamed by `rightOutName`; row order follows the left table. -/
def leftJoin (L R : Table) (keys : List (String × String)) (suf : String) : Table :=
  let rcols := rightOutCols R keys
  { cols := L.cols ++ rcols.map (rightOutName L.cols suf),
    rows := L.rows.flatMap (fun l =>
      let ms := R.rows.filter (fun r => joinKeyMatch keys l r)
      if ms.isEmpty then
        [l ++ rcols.map (fun c => (rightOutName L.cols suf c, Val.vNan))]
      else
        ms.map (fun r =>
          l ++ rcols.map (fun c =>
            (rightOutName L.cols suf c, (r.get? c).getD Val.vNan)))) }

/-- `df[c] = df[c].fillna(df[src])`: fill missing entries of `c` from `src`
(pandas raises `KeyError` when either column is absent). -/
def fillnaFromCol (df : Table) (c src : String) : Except PyError Table :=
  if df.cols.contains c && df.cols.contains src then
    Except.ok { df with
      rows := df.rows.map (fun r =>
        if pyNotna (r.get? c) then r
        else r.setCell c ((r.get? src).getD Val.vNan)) }
  else Except.error PyError.keyError

/-- `df[c] = df[c].apply(f)` (pandas raises `KeyError` when `c` is absent). -/
def applyColumn (df : Table) (c : String) (f : Val → Val) : Except PyError Table :=
  if df.cols.contains c then
    Except.ok { df with
      rows := df.rows.map (fun r => r.setCell c (f ((r.get? c).getD Val.vNan))) }
  else Except.error PyError.keyError

/-- `df.drop(columns=cs)`. -/
def dropColumns (df : Table) (cs : List String) : Table :=
  { cols := df.cols.filter (fun c => !cs.contains c),
    rows := df.rows.map (fun r => r.filter (fun p => !cs.contains p.1)) }

/-- The post-dictionary-merge loop: rename every column carrying the
`_from_dict` suffix back to its unsuffixed form. -/
def renameFromDictSuffix (df : Table) : Table :=
  { cols := df.cols.map (fun c =>
      if pyEndsWith c "_from_dict" then pyReplace c "_from_dict" "" else c),
    rows := df.rows.map (fun r => r.map (fun p =>
      (if pyEndsWith p.1 "_from_dict" then pyReplace p.1 "_from_dict" "" else p.1,
       p.2))) }

/-- The merge block of `load_fields_list.main`: left join against the
codings table on `(coding_name, phenotype) = (coding_name, meaning)`, fill
the `code` column from the codings side, normalize it with
`float_to_int_if_possible`, drop the auxiliary metadata columns, left join
against the data dictionary on `(name, entity)`, and strip the `_from_dict`
suffixes. -/
def mergeMetadata (raw_pheno_df coding_df data_dict_df : Table) : Except PyError Table :=
  let intermed0 := leftJoin raw_pheno_df coding_df
    [("coding_name", "coding_name"), ("phenotype", "meaning")] "_from_coding"
  match fillnaFromCol intermed0 "code" "code_from_coding" with
  | Except.error e => Except.error e
  | Except.ok intermed1 =>
    match applyColumn intermed1 "code" float_to_int_if_possible with
    | Except.error e => Except.error e
    | Except.ok intermed2 =>
      let intermed3 := dropColumns intermed2
        (["code_from_coding", "meaning", "concept", "display_order"].filter
          (fun c => intermed2.cols.contains c))
      let processed := leftJoin intermed3 data_dict_df
        [("name", "name"), ("entity", "entity")] "_from_dict"
      Except.ok (renameFromDictSuffix processed)

/-- The tail of `load_fields_list.main` after the three tables are loaded:
strip whitespace from all of them, merge, assert that the row count is
unchanged (the specification's `IntegrityError`), and only then write the
output CSV.  The `Except.ok` payload is exactly the table written to the
output file; on every error path nothing is written. -/
def mainMergeStage (raw_pheno_df coding_df data_dict_df : Table) : Except PyError Table :=
  let raw_stripped := strip_strings raw_pheno_df
  let coding_stripped := strip_strings coding_df
  let dict_stripped := strip_strings data_dict_df
  match mergeMetadata raw_stripped coding_stripped dict_stripped with
  | Except.error e => Except.error e
  | Except.ok processed =>
      if processed.rows.length = raw_stripped.rows.length then Except.ok processed
      else Except.error PyError.assertionError

/-- One phenotype row keyed `(coding_name, phenotype) = ("c", "p")`. -/
def c1Raw : Table :=
  ⟨["phenotype", "coding_name", "entity", "name", "code"],
   [[("phenotype", Val.vStr "p"), ("coding_name", Val.vStr "c"),
     ("entity", Val.vStr "e"), ("name", Val.vStr "n"), ("code", Val.vNan)]]⟩

/-- A codings table with two rows sharing the join key `("c", "p")`. -/
def c1Coding : Table :=
  ⟨["coding_name", "meaning", "code", "concept", "display_order"],
   [[("coding_name", Val.vStr "c"), ("meaning", Val.vStr "p"),
     ("code", Val.vInt 1), ("concept", Val.vStr "x"), ("display_order", Val.vInt 1)],
    [("coding_name", Val.vStr "c"), ("meaning", Val.vStr "p"),
     ("code", Val.vInt 2), ("concept", Val.vStr "y"), ("display_order", Val.vInt 2)]]⟩

/-- An empty data dictionary (header only). -/
def c1Dict : Table := ⟨["entity", "name", "title"], []⟩

/-- A codings table with no rows (the clean, non-duplicating scenario). -/
def c1CodingOk : Table :=
  ⟨["coding_name", "meaning", "code", "concept", "display_order"], []⟩

/-- The table `main` writes in the clean scenario. -/
def c1MainOut : Table :=
  match mainMergeStage c1Raw c1CodingOk c1Dict with
  | Except.ok t => t
  | Except.error _ => ⟨[], []⟩

end LoadFields

/-! ### `utils.load_file` -/

namespace Utils

/-- `pathlib.Path(p).suffix`: take the last path component `name`; with `i`
the index of its last dot, the suffix is `name[i:]` when `0 < i < len(name) -
1`, else the empty string. -/
def pySuffix (path : String) : String :=
  let nm := (splitOnChar '/' path.data).getLastD []
  let n := nm.length
  if nm.contains '.' then
    let i := n - 1 - (nm.reverse.findIdx (fun c => c = '.'))
    if 0 < i && i < n - 1 then String.mk (nm.drop i) else ""
  else ""

/-- What `utils.load_file` can return; parsed JSON/pandas artifacts are
represented by their source text (all the claims need is which branch ran and
the `.txt` transformation). -/
inductive Loaded where
  | jsonVal (text : String) : Loaded
  | txtVal (s : String) : Loaded
  | csvTable (text : String) : Loaded
  | tsvTable (text : String) : Loaded
  | xlsxTable (text : String) : Loaded
  | noneVal : Loaded
deriving DecidableEq, Repr

/-- `utils.load_file`, given the path and the file's contents: dispatches
purely on the lower-cased extension; `.txt` contents have newlines replaced
by commas; an unsupported extension logs a warning (the `Bool` component) and
returns `None` rather than raising. -/
def load_file (path : String) (content : String) : Loaded × Bool :=
  let file_extension := pyLower (pySuffix path)
  if file_extension = ".json" then (Loaded.jsonVal content, false)
  else if file_extension = ".txt" then (Loaded.txtVal (pyReplace content "\n" ","), false)
  else if file_extension = ".csv" then (Loaded.csvTable content, false)
  else if file_extension = ".tsv" then (Loaded.tsvTable content, false)
  else if file_extension = ".xlsx" then (Loaded.xlsxTable content, false)
  else (Loaded.noneVal, true)

end Utils

/-! ## Theorems -/

theorem qdiv_eq_div (a b : Rat) : qdiv a b = a / b := by
  by_cases hb : b = 0
  · subst hb
    simp [qdiv, mkRat]
  · have hbn : b.num ≠ 0 := Rat.num_ne_zero.mpr hb
    have hbd : ((b.den : Rat)) ≠ 0 := by
      exact_mod_cast Nat.pos_iff_ne_zero.mp b.pos
    have had : ((a.den : Rat)) ≠ 0 := by
      exact_mod_cast Nat.pos_iff_ne_zero.mp a.pos
    have hbnq : ((b.num : Rat)) ≠ 0 := by exact_mod_cast hbn
    unfold qdiv
    rcases le_or_lt 0 b.num with h | h
    · rw [if_pos h, Rat.mkRat_eq_div]
      push_cast
      rw [show ((b.num.natAbs : Rat)) = ((b.num : Rat)) from by
        rw [Int.cast_natAbs]
        exact_mod_cast abs_of_nonneg h]
      conv_rhs => rw [← Rat.num_div_den a, ← Rat.num_div_den b]
      field_simp
    · rw [if_neg (not_le.mpr h), Rat.mkRat_eq_div]
      push_cast
      rw [show ((b.num.natAbs : Rat)) = -((b.num : Rat)) from by
        rw [Int.cast_natAbs]
        exact_mod_cast abs_of_nonpos (le_of_lt h)]
      conv_rhs => rw [← Rat.num_div_den a, ← Rat.num_div_den b]
      field_simp

/-- The reduced conjunction of the source's condition list agrees with the
specification's guarded-conjunction predicate on every row. -/
theorem ProcessRaw.reduceConditions_eq_keepRowSpec (df : Table) (r : Row) :
    (match ProcessRaw.exclusionConditions df with
     | [] => true
     | c :: cs => cs.foldl (fun acc f => acc && f r) (c r)) = ProcessRaw.keepRowSpec df.cols r := by
  cases h1 : df.cols.contains "participant.birth_year" <;>
    cases h2 : df.cols.contains "participant.demog_sex_2_1" <;>
      cases h3 : df.cols.contains "participant.demog_ethnicity_1_1" <;>
        cases h4 : df.cols.contains "questionnaire.housing_income_1_1" <;>
          cases h5 : df.cols.contains "age" <;>
            simp_all [ProcessRaw.exclusionConditions, ProcessRaw.keepRowSpec, Bool.and_assoc]


/-- C6: `float_to_int_if_possible` returns the integer form of `v` when `v`
parses as a number representing a whole number, the floating-point value when
`v` parses as a non-whole number, and `v` unchanged when `v` is not numeric. -/
theorem C6_code_normalization (v : Val) :
    (∀ q : Rat, pyFloatOf v = some q → q.den = 1 →
       float_to_int_if_possible v = Val.vInt q.num) ∧
    (∀ q : Rat, pyFloatOf v = some q → q.den ≠ 1 →
       float_to_int_if_possible v = Val.vFloat q) ∧
    (pyFloatOf v = none → float_to_int_if_possible v = v) := by
  refine ⟨?_, ?_, ?_⟩
  · intro q hq hden
    unfold float_to_int_if_possible
    rw [hq]
    have htr : pyTrunc q = q.num := by
      unfold pyTrunc
      rw [hden]
      exact Int.tdiv_one q.num
    have hqe : q = ((q.num : Int) : Rat) :=
      Rat.ext (Rat.num_intCast q.num).symm (hden.trans (Rat.den_intCast q.num).symm)
    show (if q = ((pyTrunc q : Int) : Rat) then Val.vInt (pyTrunc q) else Val.vFloat q)
        = Val.vInt q.num
    rw [htr, if_pos hqe]
  · intro q hq hden
    unfold float_to_int_if_possible
    rw [hq]
    have hne : q ≠ ((pyTrunc q : Int) : Rat) := by
      intro he
      exact hden (by rw [he]; exact Rat.den_intCast _)
    show (if q = ((pyTrunc q : Int) : Rat) then Val.vInt (pyTrunc q) else Val.vFloat q)
        = Val.vFloat q
    rw [if_neg hne]
  · intro h
    unfold float_to_int_if_possible
    rw [h]

/-- Witness for C6 at the specification's concrete inputs: `5.0 → 5`,
`5.5` stays `5.5`, a non-numeric string is passed through unchanged. -/
theorem C6_code_normalization_witness :
    float_to_int_if_possible (Val.vFloat (mkRat 5 1)) = Val.vInt 5 ∧
    float_to_int_if_possible (Val.vFloat (mkRat 11 2)) = Val.vFloat (mkRat 11 2) ∧
    float_to_int_if_possible (Val.vStr "abc") = Val.vStr "abc" := by
  refine ⟨?_, ?_, ?_⟩
  · exact (C6_code_normalization (Val.vFloat (mkRat 5 1))).1 (mkRat 5 1) (by decide) (by decide)
  · exact (C6_code_normalization (Val.vFloat (mkRat 11 2))).2.1 (mkRat 11 2) (by decide) (by decide)
  · exact (C6_code_normalization (Val.vStr "abc")).2.2 (by decide)

/-- C5: `apply_exclusions` keeps exactly the rows satisfying the conjunction
of the applicable conditions (each applied only when its source column
exists), leaves the column list unchanged, and returns the table unmodified
with a warning when none of the recognized columns exist. -/
theorem C5_apply_exclusions_spec (df : Table) :
    (ProcessRaw.apply_exclusions df).1.rows
        = df.rows.filter (ProcessRaw.keepRowSpec df.cols) ∧
    (ProcessRaw.apply_exclusions df).1.cols = df.cols ∧
    (ProcessRaw.noExclusionCols df.cols = true →
      ProcessRaw.apply_exclusions df = (df, true)) := by
  refine ⟨?_, ?_, ?_⟩
  · unfold ProcessRaw.apply_exclusions
    cases h : ProcessRaw.exclusionConditions df with
    | nil =>
        symm
        rw [List.filter_eq_self]
        intro a _
        have hred := ProcessRaw.reduceConditions_eq_keepRowSpec df a
        rw [h] at hred
        exact hred.symm
    | cons c cs =>
        apply List.filter_congr
        intro a _
        have hred := ProcessRaw.reduceConditions_eq_keepRowSpec df a
        rw [h] at hred
        exact hred
  · unfold ProcessRaw.apply_exclusions
    cases h : ProcessRaw.exclusionConditions df <;> rfl
  · intro hno
    have h5 := hno
    simp only [ProcessRaw.noExclusionCols, Bool.and_eq_true, Bool.not_eq_true'] at h5
    obtain ⟨⟨⟨⟨h1, h2⟩, h3⟩, h4⟩, hA⟩ := h5
    have hnil : ProcessRaw.exclusionConditions df = [] := by
      simp only [ProcessRaw.exclusionConditions]
      simp
      exact ⟨by simpa using h1, by simpa using h2, by simpa using h3,
        by simpa using h4, by simpa using hA⟩
    unfold ProcessRaw.apply_exclusions
    rw [hnil]

/-- Witness for C5: a table with none of the recognized columns passes
through unmodified (with the warning), and a sex value of `3` is filtered
out when the sex column exists. -/
theorem C5_apply_exclusions_spec_witness :
    ProcessRaw.apply_exclusions ⟨["foo"], [[("foo", Val.vInt 1)]]⟩
        = (⟨["foo"], [[("foo", Val.vInt 1)]]⟩, true) ∧
    (ProcessRaw.apply_exclusions
        ⟨["participant.demog_sex_2_1"],
         [[("participant.demog_sex_2_1", Val.vInt 3)],
          [("participant.demog_sex_2_1", Val.vInt 1)]]⟩).1.rows
        = [[("participant.demog_sex_2_1", Val.vInt 1)]] := by
  constructor
  · exact (C5_apply_exclusions_spec ⟨["foo"], [[("foo", Val.vInt 1)]]⟩).2.2 (by decide)
  · rw [(C5_apply_exclusions_spec
      ⟨["participant.demog_sex_2_1"],
       [[("participant.demog_sex_2_1", Val.vInt 3)],
        [("participant.demog_sex_2_1", Val.vInt 1)]]⟩).1]
    decide

/-- C10: `apply_exclusions` only removes rows: the output's rows form a
sublist of the input's rows (same rows, same order, values untouched) and the
column list is identical. -/
theorem C10_apply_exclusions_only_removes_rows (df : Table) :
    (ProcessRaw.apply_exclusions df).1.cols = df.cols ∧
    List.Sublist (ProcessRaw.apply_exclusions df).1.rows df.rows := by
  unfold ProcessRaw.apply_exclusions
  cases h : ProcessRaw.exclusionConditions df with
  | nil => exact ⟨rfl, List.Sublist.refl _⟩
  | cons c cs => exact ⟨rfl, List.filter_sublist _⟩

/-- C2: the cleaning operation `process_raw_data` is claimed to add an
`age_at_recruitment` column (day difference of first-of-month dates divided
by 365.25, with the spec example 2020-06 vs 1990-06 giving ≈ 30.0).  The code
instead calls the undefined name `derive_age` and raises `NameError` on every
input; the defined-but-never-called `derive_age_at_recruiment` does compute
the claimed value (10958 days / 365.25 ∈ [29.99, 30.01]) at the spec's
example input. -/
theorem C2_process_raw_data_raises_name_error :
    ProcessRaw.process_raw_data ProcessRaw.c2Table
        = Except.error (PyError.nameError "derive_age is not defined") ∧
    ((ProcessRaw.derive_age_at_recruiment ProcessRaw.c2Table).rows.headD []).get?
        "age_at_recruitment"
        = some (Val.vFloat (qdiv ((10958 : Int) : Rat) ProcessRaw.daysPerYear)) ∧
    mkRat 2999 100 ≤ qdiv ((10958 : Int) : Rat) ProcessRaw.daysPerYear ∧
    qdiv ((10958 : Int) : Rat) ProcessRaw.daysPerYear ≤ mkRat 3001 100 := by
  refine ⟨rfl, by decide, by decide, by decide⟩

/-- C3: when the target path exists and either no structured-data validation
is required or it parses as valid JSON, both fetcher variants return the
target path itself, run no external command (in particular no download),
leave the filesystem unchanged, and a second call under the same conditions
returns the same path again. -/
theorem C3_fetcher_idempotent_on_valid_target (fs : FS) (p : PPath)
    (fid : String) (hex : fs.existing.contains p = true) :
    (∀ v : Bool, (v = false ∨ fs.validJson.contains p = true) →
       ExtractRaw.load_or_download_file fs p fid v = (Except.ok p, [], fs) ∧
       ExtractRaw.load_or_download_file
           (ExtractRaw.load_or_download_file fs p fid v).2.2 p fid v
         = (Except.ok p, [], fs)) ∧
    (fs.validJson.contains p = true → ∀ cm ow : Bool,
       LoadFields.load_or_download_file fs p fid cm ow = (Except.ok p, [], fs) ∧
       LoadFields.load_or_download_file
           (LoadFields.load_or_download_file fs p fid cm ow).2.2 p fid cm ow
         = (Except.ok p, [], fs)) := by
  constructor
  · intro v hv
    have hcond : (fs.existing.contains p && (!v || fs.validJson.contains p)) = true := by
      rcases hv with h | h
      · subst h
        simp
        simpa using hex
      · simp
        exact ⟨by simpa using hex, Or.inr (by simpa using h)⟩
    have h1 : ExtractRaw.load_or_download_file fs p fid v = (Except.ok p, [], fs) := by
      unfold ExtractRaw.load_or_download_file
      split
      next => rfl
      next hno => exact absurd hcond hno
    refine ⟨h1, ?_⟩
    rw [h1]
    exact h1
  · intro hv cm ow
    have hcond : (fs.existing.contains p && fs.validJson.contains p) = true := by
      simp
      exact ⟨by simpa using hex, by simpa using hv⟩
    have h1 : LoadFields.load_or_download_file fs p fid cm ow = (Except.ok p, [], fs) := by
      unfold LoadFields.load_or_download_file
      split
      next => rfl
      next hno => exact absurd hcond hno
    refine ⟨h1, ?_⟩
    rw [h1]
    exact h1

/-- Witness for C3 at a concrete existing valid-JSON target: both variants
return the target with no commands run. -/
theorem C3_fetcher_idempotent_on_valid_target_witness :
    (ExtractRaw.load_or_download_file c3FS c3Path "file-x" true
        = (Except.ok c3Path, [], c3FS)) ∧
    (LoadFields.load_or_download_file c3FS c3Path "file-x" false false
        = (Except.ok c3Path, [], c3FS)) := by
  have h := C3_fetcher_idempotent_on_valid_target c3FS c3Path "file-x" (by decide)
  exact ⟨(h.1 true (Or.inr (by decide))).1, (h.2 (by decide) false false).1⟩

/-- Behavior of the `extract_raw_field_vals` fetcher once the target check
fails: everything it does targets the re-rooted (or flat-name) fallback. -/
theorem erfv_fallback_behavior (fs : FS) (p : PPath) (fid : String) (v : Bool)
    (hcond : (fs.existing.contains p && (!v || fs.validJson.contains p)) = false) :
    ((ExtractRaw.load_or_download_file fs p fid v).1
        = Except.ok ⟨false, rerootSpec p⟩ ∨
     (ExtractRaw.load_or_download_file fs p fid v).1
        = Except.error PyError.fileNotFoundError) ∧
    (∀ q ∈ downloadTargets (ExtractRaw.load_or_download_file fs p fid v).2.1,
       q = ⟨false, rerootSpec p⟩) := by
  cases hrel : relativeToProjectRoot p with
  | some r =>
      simp only [ExtractRaw.load_or_download_file, rerootSpec, hrel]
      split
      next h => rw [hcond] at h; exact Bool.noConfusion h
      next =>
        split
        next => exact ⟨Or.inl rfl, by simp [downloadTargets]⟩
        next =>
          split
          next => exact ⟨Or.inl rfl, by simp [downloadTargets]⟩
          next => exact ⟨Or.inr rfl, by simp [downloadTargets]⟩
  | none =>
      simp only [ExtractRaw.load_or_download_file, rerootSpec, hrel]
      split
      next h => rw [hcond] at h; exact Bool.noConfusion h
      next =>
        split
        next => exact ⟨Or.inl rfl, by simp [downloadTargets]⟩
        next =>
          split
          next => exact ⟨Or.inl rfl, by simp [downloadTargets]⟩
          next => exact ⟨Or.inr rfl, by simp [downloadTargets]⟩

/-- Behavior of the `load_fields_list` fetcher in config mode once the
target check fails: everything targets `helpers/<file name>`. -/
theorem lfl_config_fallback_behavior (fs : FS) (p : PPath) (fid : String)
    (ow : Bool)
    (hcond : (fs.existing.contains p && fs.validJson.contains p) = false) :
    ((LoadFields.load_or_download_file fs p fid true ow).1
        = Except.ok ⟨false, ["helpers", p.name]⟩ ∨
     (LoadFields.load_or_download_file fs p fid true ow).1
        = Except.error PyError.fileNotFoundError) ∧
    (∀ q ∈ downloadTargets (LoadFields.load_or_download_file fs p fid true ow).2.1,
       q = ⟨false, ["helpers", p.name]⟩) := by
  simp only [LoadFields.load_or_download_file, reduceIte]
  split
  next h => rw [hcond] at h; exact Bool.noConfusion h
  next =>
    split
    next => exact ⟨Or.inl rfl, by simp [downloadTargets]⟩
    next =>
      split
      next => exact ⟨Or.inl rfl, by simp [downloadTargets]⟩
      next => exact ⟨Or.inr rfl, by simp [downloadTargets]⟩

/-- Behavior of the `load_fields_list` fetcher outside config mode when the
target is not below the project root: `Path.relative_to` raises `ValueError`
(no fallback, no command, no download). -/
theorem lfl_nonconfig_raises (fs : FS) (p : PPath) (fid : String) (ow : Bool)
    (hcond : (fs.existing.contains p && fs.validJson.contains p) = false)
    (hrel : relativeToProjectRoot p = none) :
    LoadFields.load_or_download_file fs p fid false ow
      = (Except.error PyError.valueError, [], fs) := by
  simp only [LoadFields.load_or_download_file, hrel, Bool.false_eq_true, ite_false,
    Option.map_none']
  split
  next h => rw [hcond] at h; exact Bool.noConfusion h
  next => rfl

/-- Behavior of the `load_fields_list` fetcher outside config mode when the
target is below the project root: everything targets the re-rooted
fallback. -/
theorem lfl_nonconfig_fallback_behavior (fs : FS) (p : PPath) (fid : String)
    (ow : Bool) (r : List String)
    (hcond : (fs.existing.contains p && fs.validJson.contains p) = false)
    (hrel : relativeToProjectRoot p = some r) :
    ((LoadFields.load_or_download_file fs p fid false ow).1
        = Except.ok ⟨false, r⟩ ∨
     (LoadFields.load_or_download_file fs p fid false ow).1
        = Except.error PyError.fileNotFoundError) ∧
    (∀ q ∈ downloadTargets (LoadFields.load_or_download_file fs p fid false ow).2.1,
       q = ⟨false, r⟩) := by
  simp only [LoadFields.load_or_download_file, hrel, Bool.false_eq_true, ite_false,
    Option.map_some']
  split
  next h => rw [hcond] at h; exact Bool.noConfusion h
  next =>
    split
    next => exact ⟨Or.inl rfl, by simp [downloadTargets]⟩
    next =>
      split
      next => exact ⟨Or.inl rfl, by simp [downloadTargets]⟩
      next => exact ⟨Or.inr rfl, by simp [downloadTargets]⟩

/-- C4 counterexample: for the target `/other/file.json` (outside the project
root, not present locally), the `load_fields_list` variant does not fall back
to the flat file name — `Path.relative_to` raises `ValueError`, so the claim
that both variants "do not fail" on such paths is false. -/
theorem C4_counterexample_load_fields_variant_raises :
    (LoadFields.load_or_download_file c4FS c4Path "file-y" false false).1
      = Except.error PyError.valueError := by decide

/-- C4 (amended): once the step-1 target check fails, the
`extract_raw_field_vals` variant re-roots the target below `/mnt/project`
into the local cache (flat file name when the path is not under the project
root) and never targets anything else; the `load_fields_list` variant instead
uses `helpers/<file name>` in config mode, and outside config mode re-roots
but raises `ValueError` (no fallback, no download) when the path is not under
the project root. -/
theorem C4_fallback_path_amended (fs : FS) (p : PPath) (fid : String) :
    (∀ v : Bool,
       (fs.existing.contains p && (!v || fs.validJson.contains p)) = false →
       ((ExtractRaw.load_or_download_file fs p fid v).1
           = Except.ok ⟨false, rerootSpec p⟩ ∨
        (ExtractRaw.load_or_download_file fs p fid v).1
           = Except.error PyError.fileNotFoundError) ∧
       (∀ q ∈ downloadTargets (ExtractRaw.load_or_download_file fs p fid v).2.1,
          q = ⟨false, rerootSpec p⟩)) ∧
    (∀ ow : Bool,
       (fs.existing.contains p && fs.validJson.contains p) = false →
       (((LoadFields.load_or_download_file fs p fid true ow).1
             = Except.ok ⟨false, ["helpers", p.name]⟩ ∨
         (LoadFields.load_or_download_file fs p fid true ow).1
             = Except.error PyError.fileNotFoundError) ∧
        (∀ q ∈ downloadTargets (LoadFields.load_or_download_file fs p fid true ow).2.1,
           q = ⟨false, ["helpers", p.name]⟩)) ∧
       (relativeToProjectRoot p = none →
         LoadFields.load_or_download_file fs p fid false ow
           = (Except.error PyError.valueError, [], fs)) ∧
       (∀ r, relativeToProjectRoot p = some r →
         ((LoadFields.load_or_download_file fs p fid false ow).1
             = Except.ok ⟨false, r⟩ ∨
          (LoadFields.load_or_download_file fs p fid false ow).1
             = Except.error PyError.fileNotFoundError) ∧
         (∀ q ∈ downloadTargets (LoadFields.load_or_download_file fs p fid false ow).2.1,
            q = ⟨false, r⟩))) := by
  refine ⟨fun v hc => erfv_fallback_behavior fs p fid v hc, fun ow hc => ?_⟩
  exact ⟨lfl_config_fallback_behavior fs p fid ow hc,
    fun hrel => lfl_nonconfig_raises fs p fid ow hc hrel,
    fun r hrel => lfl_nonconfig_fallback_behavior fs p fid ow r hc hrel⟩

/-- Witness for C4 (amended) at `/other/file.json` on concrete filesystems:
the `extract_raw_field_vals` variant resolves to the flat fallback
`./file.json`, while the `load_fields_list` variant raises `ValueError`
outside config mode. -/
theorem C4_fallback_path_amended_witness :
    ((ExtractRaw.load_or_download_file c4FSdl c4Path "file-y" true).1
        = Except.ok ⟨false, ["file.json"]⟩ ∨
     (ExtractRaw.load_or_download_file c4FSdl c4Path "file-y" true).1
        = Except.error PyError.fileNotFoundError) ∧
    LoadFields.load_or_download_file c4FS c4Path "file-y" false false
      = (Except.error PyError.valueError, [], c4FS) := by
  constructor
  · exact ((C4_fallback_path_amended c4FSdl c4Path "file-y").1 true (by decide)).1
  · exact ((C4_fallback_path_amended c4FS c4Path "file-y").2 false (by decide)).2.1 (by decide)

/-- C7: when the field list has both `entity` and `name` columns,
`extract_fields` hands the external extraction command exactly one field
specification: the comma-join, in row order, of `entity.name` pairs with
leading/trailing whitespace stripped from each component. -/
theorem C7_extract_fields_field_spec (d : String) (tbl : Table) (o : String)
    (s : Bool) (he : tbl.cols.contains "entity" = true)
    (hn : tbl.cols.contains "name" = true) :
    ExtractRaw.fieldSpecsSent (ExtractRaw.extract_fields d tbl o s)
      = [String.intercalate "," (tbl.rows.map (fun r =>
          pyStrip (ExtractRaw.pyStr (r.get? "entity")) ++ "."
            ++ pyStrip (ExtractRaw.pyStr (r.get? "name"))))] := by
  unfold ExtractRaw.extract_fields
  split
  next h =>
    rw [he, hn] at h
    simp at h
  next =>
    split
    next => simp [ExtractRaw.fieldSpecsSent]
    next => simp [ExtractRaw.fieldSpecsSent]

/-- Witness for C7 at the specification's two-pair field list: the command
receives exactly `entity1.name1,entity2.name2`, without the input's stray
whitespace. -/
theorem C7_extract_fields_field_spec_witness :
    ExtractRaw.fieldSpecsSent
        (ExtractRaw.extract_fields "dataset-1" ExtractRaw.c7Table "out.sql" true)
      = ["entity1.name1,entity2.name2"] := by
  rw [C7_extract_fields_field_spec "dataset-1" ExtractRaw.c7Table "out.sql" true
    (by decide) (by decide)]
  decide

/-- C8: when the field list lacks the `entity` column or the `name` column,
`extract_fields` raises the schema error (`ValueError`) and performs no
external action at all. -/
theorem C8_extract_fields_schema_error (d : String) (tbl : Table) (o : String)
    (s : Bool)
    (h : tbl.cols.contains "entity" = false ∨ tbl.cols.contains "name" = false) :
    ExtractRaw.extract_fields d tbl o s = (Except.error PyError.valueError, []) := by
  unfold ExtractRaw.extract_fields
  split
  next => rfl
  next hcond =>
    exfalso
    simp only [Bool.not_eq_true', Bool.not_eq_false] at hcond
    rw [Bool.and_eq_true] at hcond
    rcases h with h | h
    · rw [h] at hcond
      exact Bool.noConfusion hcond.1
    · rw [h] at hcond
      exact Bool.noConfusion hcond.2

/-- Witness for C8: a field list with only an `entity` column raises the
schema error with no commands run. -/
theorem C8_extract_fields_schema_error_witness :
    ExtractRaw.extract_fields "dataset-1" ⟨["entity"], []⟩ "out.csv" false
      = (Except.error PyError.valueError, []) :=
  C8_extract_fields_schema_error "dataset-1" ⟨["entity"], []⟩ "out.csv" false
    (Or.inr (by decide))

/-- C9: `load_file` on a path whose extension is none of `.json`, `.txt`,
`.csv`, `.tsv`, `.xlsx` warns and returns a null result rather than raising;
on a `.txt` path it returns the contents with newlines replaced by commas. -/
theorem C9_load_file_dispatch (path content : String) :
    (pyLower (Utils.pySuffix path) ∉ [".json", ".txt", ".csv", ".tsv", ".xlsx"] →
      Utils.load_file path content = (Utils.Loaded.noneVal, true)) ∧
    (pyLower (Utils.pySuffix path) = ".txt" →
      Utils.load_file path content
        = (Utils.Loaded.txtVal (pyReplace content "\n" ","), false)) := by
  constructor
  · intro h
    simp only [List.mem_cons, List.not_mem_nil, or_false, not_or] at h
    obtain ⟨h1, h2, h3, h4, h5⟩ := h
    simp only [Utils.load_file]
    rw [if_neg h1, if_neg h2, if_neg h3, if_neg h4, if_neg h5]
  · intro h
    simp only [Utils.load_file]
    rw [h, if_neg (by decide : ¬(".txt" : String) = ".json"), if_pos rfl]

/-- Witness for C9: a `.bin` path warns and returns null; a `.txt` path
returns its newline-to-comma flattened contents. -/
theorem C9_load_file_dispatch_witness :
    Utils.load_file "data/fields.bin" "xyz" = (Utils.Loaded.noneVal, true) ∧
    Utils.load_file "helpers/list.txt" "f1\nf2" = (Utils.Loaded.txtVal "f1,f2", false) := by
  constructor
  · exact (C9_load_file_dispatch "data/fields.bin" "xyz").1 (by decide)
  · rw [(C9_load_file_dispatch "helpers/list.txt" "f1\nf2").2 (by decide)]
    decide

/-- A `flatMap` whose pieces are all non-empty has at least one output row
per input row. -/
theorem flatMap_length_ge {α β : Type} (l : List α) (f : α → List β)
    (h : ∀ a, 1 ≤ (f a).length) : l.length ≤ (l.flatMap f).length := by
  induction l with
  | nil => simp
  | cons a as ih =>
      simp only [List.flatMap_cons, List.length_append, List.length_cons]
      have := h a
      omega

/-- A left join never drops left rows: each left row produces its matches,
or one padded row. -/
theorem leftJoin_length_ge (L R : Table) (keys : List (String × String))
    (suf : String) : L.rows.length ≤ (LoadFields.leftJoin L R keys suf).rows.length := by
  unfold LoadFields.leftJoin
  apply flatMap_length_ge
  intro l
  dsimp only
  by_cases h : (R.rows.filter (fun r => LoadFields.joinKeyMatch keys l r)).isEmpty
  · rw [if_pos h]
    simp
  · rw [if_neg h]
    have hne : R.rows.filter (fun r => LoadFields.joinKeyMatch keys l r) ≠ [] := by
      simpa [List.isEmpty_iff] using h
    simpa using Nat.one_le_iff_ne_zero.mpr (by
      simpa [List.length_eq_zero] using hne)

/-- `fillnaFromCol` preserves the row count on success. -/
theorem fillnaFromCol_length (df : Table) (c src : String) (t : Table)
    (h : LoadFields.fillnaFromCol df c src = Except.ok t) :
    t.rows.length = df.rows.length := by
  unfold LoadFields.fillnaFromCol at h
  split at h
  · injection h with h
    rw [← h]
    simp
  · exact absurd h (by simp)

/-- `applyColumn` preserves the row count on success. -/
theorem applyColumn_length (df : Table) (c : String) (f : Val → Val) (t : Table)
    (h : LoadFields.applyColumn df c f = Except.ok t) :
    t.rows.length = df.rows.length := by
  unfold LoadFields.applyColumn at h
  split at h
  · injection h with h
    rw [← h]
    simp
  · exact absurd h (by simp)

/-- `dropColumns` preserves the row count. -/
theorem dropColumns_length (df : Table) (cs : List String) :
    (LoadFields.dropColumns df cs).rows.length = df.rows.length := by
  simp [LoadFields.dropColumns]

/-- The suffix rename preserves the row count. -/
theorem renameFromDictSuffix_length (df : Table) :
    (LoadFields.renameFromDictSuffix df).rows.length = df.rows.length := by
  simp [LoadFields.renameFromDictSuffix]

/-- `strip_strings` preserves the row count. -/
theorem strip_strings_length (df : Table) :
    (LoadFields.strip_strings df).rows.length = df.rows.length := by
  simp [LoadFields.strip_strings]

/-- C1 counterexample: with one phenotype row and a codings table holding two
rows that share the join key, the metadata merge returns 2 rows, not the
claimed "exactly N rows regardless of the contents of the codings and
dictionary tables"; the full `main` stage then raises the row-count assertion
instead of writing output. -/
theorem C1_counterexample_duplicate_codings_inflate_rows :
    (LoadFields.mergeMetadata LoadFields.c1Raw LoadFields.c1Coding
        LoadFields.c1Dict).map (fun t => t.rows.length) = Except.ok 2 ∧
    LoadFields.c1Raw.rows.length = 1 ∧
    LoadFields.mainMergeStage LoadFields.c1Raw LoadFields.c1Coding LoadFields.c1Dict
      = Except.error PyError.assertionError := by
  refine ⟨by decide, rfl, by decide⟩

/-- C1 (amended): the metadata merge never drops phenotype rows (output has
at least N rows) but can exceed N when the metadata tables carry duplicate
join keys; `main` writes the output only when the merged row count equals N
exactly, and raises the row-count assertion (the specification's
`IntegrityError`) with nothing written whenever it differs. -/
theorem C1_merge_rowcount_amended (raw coding dataDict : Table) :
    (∀ t, LoadFields.mergeMetadata raw coding dataDict = Except.ok t →
       raw.rows.length ≤ t.rows.length) ∧
    (∀ t, LoadFields.mainMergeStage raw coding dataDict = Except.ok t →
       t.rows.length = raw.rows.length) ∧
    (∀ t, LoadFields.mergeMetadata (LoadFields.strip_strings raw)
          (LoadFields.strip_strings coding) (LoadFields.strip_strings dataDict)
          = Except.ok t →
       t.rows.length ≠ raw.rows.length →
       LoadFields.mainMergeStage raw coding dataDict
         = Except.error PyError.assertionError) := by
  refine ⟨?_, ?_, ?_⟩
  · intro t h
    unfold LoadFields.mergeMetadata at h
    dsimp only at h
    split at h
    next heq => exact absurd h (by simp)
    next i1 heq =>
      split at h
      next heq2 => exact absurd h (by simp)
      next i2 heq2 =>
        injection h with h
        have l1 := leftJoin_length_ge raw coding
          [("coding_name", "coding_name"), ("phenotype", "meaning")] "_from_coding"
        have l2 := fillnaFromCol_length _ _ _ _ heq
        have l3 := applyColumn_length _ _ _ _ heq2
        have l4 := dropColumns_length i2
          (["code_from_coding", "meaning", "concept", "display_order"].filter
            (fun c => i2.cols.contains c))
        have l5 := leftJoin_length_ge
          (LoadFields.dropColumns i2
            (["code_from_coding", "meaning", "concept", "display_order"].filter
              (fun c => i2.cols.contains c)))
          dataDict [("name", "name"), ("entity", "entity")] "_from_dict"
        have l6 : t.rows.length
            = (LoadFields.leftJoin
                (LoadFields.dropColumns i2
                  (["code_from_coding", "meaning", "concept", "display_order"].filter
                    (fun c => i2.cols.contains c)))
                dataDict [("name", "name"), ("entity", "entity")]
                "_from_dict").rows.length := by
          rw [← h]
          exact renameFromDictSuffix_length _
        omega
  · intro t h
    unfold LoadFields.mainMergeStage at h
    dsimp only at h
    split at h
    next heq => exact absurd h (by simp)
    next processed heq =>
      split at h
      next hlen =>
        injection h with h
        subst h
        rw [hlen, strip_strings_length]
      next => exact absurd h (by simp)
  · intro t hm hne
    unfold LoadFields.mainMergeStage
    dsimp only
    split
    next heq => rw [hm] at heq; exact absurd heq (by simp)
    next processed heq =>
      rw [hm] at heq
      injection heq with heq
      subst heq
      simp only [strip_strings_length]
      rw [if_neg hne]

/-- Witness for C1 (amended) on the clean concrete scenario (no duplicate
codings keys): `main` succeeds and the written table has exactly the input's
row count. -/
theorem C1_merge_rowcount_amended_witness :
    LoadFields.c1MainOut.rows.length = LoadFields.c1Raw.rows.length :=
  (C1_merge_rowcount_amended LoadFields.c1Raw LoadFields.c1CodingOk
    LoadFields.c1Dict).2.1 LoadFields.c1MainOut rfl
